import Mathlib

/-!
Verification of the fleur statistical-visualization library.

This file gives a shallow embedding, in Lean 4, of the decision logic of the
fleur library (type inference, statistical-test selection, input handling,
dataset loading, and the beeswarm layout algorithm), translated from the
Python source, and proves or refutes the frozen claims about it.

Modelling conventions:
- Python floats are modelled as exact rationals; the literal 1e-5 is
  modelled as 1/100000.
- Python exceptions are modelled by the PyError type; a function that can
  raise returns Except PyError or records the escaping error in a field.
- scipy test functions are not executed; the embedding records WHICH scipy
  function the code invokes, and computes exactly the quantities the code
  computes itself (contingency tables, expected frequencies, chi-square
  statistic, beeswarm offsets).
- numpy argsort is not stable; the embedding fixes the tie order of equal
  values to be by ascending index.  None of the settled claims depends on
  the tie order.
-/

set_option maxHeartbeats 1000000

namespace Fleur

/-- Python exceptions that the modelled code can raise. -/
inductive PyError
  | valueError
  | typeError
  | keyError
  | runtimeError
  | notImplementedError
  | attributeError
  | libraryError
  deriving DecidableEq, Repr

/-! ## Type inference (src/fleur/_utils/infer_types.py) -/

/-- The narwhals dtypes relevant to `_infer_types`: the three dtypes its
`is_categorical` helper tests for, the numeric dtypes
(`DType.is_numeric()` holds exactly for the integer, unsigned-integer and
float dtypes), and two non-numeric, non-categorical dtypes. -/
inductive NwDType
  | string
  | categorical
  | enum
  | int8
  | int16
  | int32
  | int64
  | uint8
  | uint16
  | uint32
  | uint64
  | float32
  | float64
  | boolean
  | datetime
  deriving DecidableEq, Repr

/-- Column schema of a dataframe: a total map from column names to dtypes. -/
def Schema : Type := String → NwDType

/-- Inner helper `is_categorical` of `_infer_types`: the dtype is an
instance of `nw.Categorical`, `nw.Enum` or `nw.String`. -/
def is_categorical (column_name : String) (schema : Schema) : Bool :=
  match schema column_name with
  | .categorical | .enum | .string => true
  | _ => false

/-- The narwhals `DType.is_numeric()` predicate. -/
def dtype_is_numeric : NwDType → Bool
  | .int8 | .int16 | .int32 | .int64 => true
  | .uint8 | .uint16 | .uint32 | .uint64 => true
  | .float32 | .float64 => true
  | _ => false

/-- Inner helper `is_numerical` of `_infer_types`. -/
def is_numerical (column_name : String) (schema : Schema) : Bool :=
  dtype_is_numeric (schema column_name) && !(is_categorical column_name schema)

/-- Embedding of `_infer_types(x, y, df)`: returns the pair
(categorical column, numerical column) or raises `KeyError`. -/
def infer_types (x y : String) (schema : Schema) : Except PyError (String × String) :=
  let x_is_cat := is_categorical x schema
  let y_is_cat := is_categorical y schema
  let x_is_num := is_numerical x schema
  let y_is_num := is_numerical y schema
  if x_is_cat && y_is_num then .ok (x, y)
  else if x_is_num && y_is_cat then .ok (y, x)
  else .error .keyError

/-! ## Dataset loading (src/fleur/datasets.py) -/

/-- Python `str.lower()` (all names involved are ASCII). -/
def pyLower (s : String) : String := ⟨s.data.map Char.toLower⟩

def AVAILABLE_DATASETS : List String := ["iris", "mtcars"]

def AVAILABLE_OUTPUTS : List String := ["pandas", "polars", "pyarrow", "modin", "cudf"]

/-- Observable outcome of `_load_data`: either a `ValueError` raised before
any file access, or a read of a bundled CSV via `nw.read_csv`. -/
inductive LoadOutcome
  | valueError
  | readCsv (path : String) (backend : String)
  deriving DecidableEq, Repr

/-- Embedding of `_load_data(dataset_name, return_as)`. -/
def load_data (dataset_name return_as : String) : LoadOutcome :=
  let dataset_name := pyLower dataset_name
  let return_as := pyLower return_as
  if ¬ (AVAILABLE_DATASETS.contains dataset_name) then .valueError
  else if ¬ (AVAILABLE_OUTPUTS.contains return_as) then .valueError
  else .readCsv ("datasets/" ++ dataset_name ++ ".csv") return_as

/-- Embedding of `load_iris(return_as)`. -/
def load_iris (return_as : String) : LoadOutcome := load_data "iris" return_as

/-- Embedding of `load_mtcars(return_as)`. -/
def load_mtcars (return_as : String) : LoadOutcome := load_data "mtcars" return_as

/-! ## ScatterStats fitted flag (src/fleur/scatterstats.py) -/

/-- The per-instance state relevant to the summary gate: the `_is_fitted`
flag set by `__init__` and `plot`. -/
structure ScatterStatsState where
  is_fitted : Bool
  deriving DecidableEq, Repr

/-- Embedding of `ScatterStats.__init__`: the instance starts unfitted. -/
def ScatterStats_init : ScatterStatsState := { is_fitted := false }

/-- The arguments of `ScatterStats.plot` that drive its own validation
raises, plus one abstract flag standing for the scipy/matplotlib calls in
the body returning normally (if one of them raises on degenerate data, the
exception escapes before the fitted flag is set). -/
structure PlotArgs where
  alternative : String
  correlation_measure : String
  library_calls_return : Bool
  deriving DecidableEq, Repr

/-- Embedding of `ScatterStats.plot`: validates `alternative` and
`correlation_measure` (ValueError), runs the statistics and drawing calls,
and only then sets `_is_fitted = True`. -/
def ScatterStats_plot (args : PlotArgs) (s : ScatterStatsState) :
    Except PyError ScatterStatsState :=
  if ¬ (["two-sided", "less", "greater"].contains args.alternative) then
    .error .valueError
  else if ¬ (["pearson", "kendall", "spearman"].contains args.correlation_measure) then
    .error .valueError
  else if ¬ args.library_calls_return then .error .libraryError
  else .ok { s with is_fitted := true }

/-- Embedding of `ScatterStats.summary`: raises RuntimeError when the
instance is not fitted, otherwise prints and returns. -/
def ScatterStats_summary (s : ScatterStatsState) : Except PyError Unit :=
  if ¬ s.is_fitted then .error .runtimeError else .ok ()

/-! ## Input normalization (src/fleur/_utils/input_data_handling.py) -/

/-- The shapes of inputs `_InputDataHandler` distinguishes: a string column
name, a Series (with an optional name and its values), an array-like
(list, tuple or numpy array), or anything else. -/
inductive PyInput
  | pystr (s : String)
  | series (name : Option String) (vals : List ℚ)
  | array (vals : List ℚ)
  | other
  deriving DecidableEq, Repr

/-- A dataframe: named columns in order. -/
abbrev Frame : Type := List (String × List ℚ)

/-- Column names of a dataframe (`data.columns`). -/
def frame_columns (df : Frame) : List String := df.map Prod.fst

/-- Python `a or b` for an optional string: `None` and the empty string are
falsy (`x.name or "x"`). -/
def py_or (n : Option String) (dflt : String) : String :=
  match n with
  | none => dflt
  | some s => if s = "" then dflt else s

/-- Python dict literal `{x_name: x, y_name: y}` turned into a dataframe
(`nw.from_dict`): when both keys are equal the second value overwrites the
first and the dict has a single entry. -/
def from_dict (xn : String) (xv : List ℚ) (yn : String) (yv : List ℚ) : Frame :=
  if xn = yn then [(xn, yv)] else [(xn, xv), (yn, yv)]

/-- Result of `_InputDataHandler(...).get_info()`. -/
structure DataInfo where
  x_name : String
  y_name : String
  dataframe : Frame
  source : String
  deriving DecidableEq, Repr

/-- Embedding of `_InputDataHandler.__init__` followed by `get_info()`. -/
def InputDataHandler (x y : PyInput) (data : Option Frame) : Except PyError DataInfo :=
  match x, y with
  | .pystr xs, .pystr ys =>
    match data with
    | none => .error .valueError
    | some df =>
      if xs ∉ frame_columns df ∨ ys ∉ frame_columns df then
        .error .valueError
      else
        .ok { x_name := xs, y_name := ys, dataframe := df, source := "dataframe" }
  | .series xn xv, .series yn yv =>
    let x_name := py_or xn "x"
    let y_name := py_or yn "y"
    .ok { x_name := x_name, y_name := y_name,
          dataframe := from_dict x_name xv y_name yv, source := "series" }
  | .array xv, .array yv =>
    .ok { x_name := "x", y_name := "y",
          dataframe := from_dict "x" xv "y" yv, source := "array" }
  | _, _ => .error .typeError

/-! ## BetweenStats test selection (src/fleur/betweenstats.py) -/

/-- The four approach strings accepted by `BetweenStats.__init__` (any
other string is rejected there with ValueError before `_fit` runs). -/
inductive Approach
  | parametric
  | nonparametric
  | robust
  | bayes
  deriving DecidableEq, Repr

/-- The scipy.stats test functions `BetweenStats._fit` can invoke. -/
inductive ScipyTest
  | ttest_rel
  | wilcoxon
  | ttest_ind
  | mannwhitneyu
  | f_oneway
  | kruskal
  deriving DecidableEq, Repr

/-- The part of the forwarded kwargs that `_fit` itself inspects: whether
`equal_var` was passed and, if so, its value.  (`trim` only triggers
warnings and does not change control flow.) -/
structure BetweenKwargs where
  has_equal_var : Bool
  equal_var : Bool
  deriving DecidableEq, Repr

/-- Observable outcome of `BetweenStats._fit`, assuming the scipy calls
themselves return normally: the exception escaping `_fit` (if any), the
scipy test invoked (if one was reached), and the `is_ANOVA` and `name`
attributes as far as they were assigned. -/
structure BetweenOutcome where
  raised : Option PyError
  testRun : Option ScipyTest
  is_ANOVA : Option Bool
  test_name : Option String
  deriving DecidableEq, Repr

/-- Embedding of `BetweenStats._fit(approach, **kwargs)` over the number of
distinct categories, the paired flag, the approach and the inspected
kwargs.  The `attributeError` outcome reflects that for three or more
groups with `equal_var=True` passed explicitly, `self.name` is never
assigned and the f-string at the end of `_fit` raises AttributeError after
`f_oneway` was already invoked. -/
def BetweenStats_fit (n_cat : ℕ) (is_paired : Bool) (approach : Approach)
    (kw : BetweenKwargs) : BetweenOutcome :=
  if n_cat < 2 then
    ⟨some .valueError, none, none, none⟩
  else if n_cat = 2 then
    if is_paired then
      match approach with
      | .parametric => ⟨none, some .ttest_rel, some false, some "Paired t-test"⟩
      | .nonparametric => ⟨none, some .wilcoxon, some false, some "Wilcoxon"⟩
      | .robust => ⟨some .notImplementedError, none, some false, none⟩
      | .bayes => ⟨some .notImplementedError, none, some false, none⟩
    else
      match approach with
      | .parametric =>
        ⟨none, some .ttest_ind, some false,
          some (if kw.has_equal_var then
                  (if kw.equal_var then "Student" else "Welch")
                else "Student")⟩
      | .nonparametric => ⟨none, some .mannwhitneyu, some false, some "Mann-Whitney"⟩
      | .robust => ⟨none, some .ttest_ind, some false, some "Yuen"⟩
      | .bayes => ⟨some .notImplementedError, none, some false, none⟩
  else
    if is_paired then
      ⟨some .notImplementedError, none, some true, none⟩
    else
      match approach with
      | .parametric =>
        if kw.has_equal_var then
          if kw.equal_var then
            ⟨some .attributeError, some .f_oneway, some true, none⟩
          else
            ⟨some .notImplementedError, none, some true, none⟩
        else
          ⟨none, some .f_oneway, some true, some "One-way"⟩
      | .nonparametric => ⟨none, some .kruskal, some true, some "Kruskal-Wallis"⟩
      | .robust => ⟨some .notImplementedError, none, some true, none⟩
      | .bayes => ⟨some .notImplementedError, none, some true, none⟩

/-! ## BarStats (src/fleur/barstats.py) -/

/-- The two approach strings accepted by `BarStats.__init__`. -/
inductive BarApproach
  | freq
  | bayes
  deriving DecidableEq, Repr

/-- The contingency table of observed counts (rows: levels of x, columns:
levels of y), as produced by the group-by/pivot in `BarStats.__init__`. -/
abbrev ContingencyTable := List (List ℕ)

def n_obs (t : ContingencyTable) : ℕ := (t.map (fun row => row.sum)).sum

def n_rows (t : ContingencyTable) : ℕ := t.length

def n_cols (t : ContingencyTable) : ℕ := (t.headD []).length

def rowSum (t : ContingencyTable) (i : ℕ) : ℕ := (t.getD i []).sum

def colSum (t : ContingencyTable) (j : ℕ) : ℕ :=
  (t.map (fun row => row.getD j 0)).sum

/-- Expected frequencies of the chi-square contingency test:
`rowsum * colsum / total`, as computed by `scipy.stats.chi2_contingency`. -/
def expected_freqs (t : ContingencyTable) : List (List ℚ) :=
  (List.range (n_rows t)).map (fun i =>
    (List.range (n_cols t)).map (fun j =>
      ((rowSum t i : ℚ) * (colSum t j : ℚ)) / (n_obs t : ℚ)))

def chi2_dof (t : ContingencyTable) : ℕ := (n_rows t - 1) * (n_cols t - 1)

/-- One cell of the chi-square sum with the Yates continuity correction
(the observed count is moved half a unit towards the expected one).  scipy
applies it by default exactly when dof = 1, that is on 2x2 tables - which
`BarStats._fit` always reports via Fisher instead. -/
def yates_term (o e : ℚ) : ℚ :=
  (o + (1 / 2) * (if o < e then 1 else if e < o then -1 else 0) - e) ^ 2 / e

def plain_term (o e : ℚ) : ℚ := (o - e) ^ 2 / e

/-- The chi-square statistic computed by `scipy.stats.chi2_contingency`
with its default `correction=True`. -/
def chi2_statistic (t : ContingencyTable) : ℚ :=
  let exp := expected_freqs t
  let corr := chi2_dof t = 1
  ((List.range (n_rows t)).map (fun i =>
    ((List.range (n_cols t)).map (fun j =>
      let o : ℚ := ((t.getD i []).getD j 0 : ℕ)
      let e := (exp.getD i []).getD j 0
      if corr then yates_term o e else plain_term o e)).sum)).sum

/-- The shape test `self.contingency_table.shape == (2, 2)`. -/
def is_2x2 (t : ContingencyTable) : Prop := n_rows t = 2 ∧ n_cols t = 2

instance (t : ContingencyTable) : Decidable (is_2x2 t) := by
  unfold is_2x2; infer_instance

/-- The assumption test `np.any(self.expected_frequencies < 5)`. -/
def chi2_assumption_violated (t : ContingencyTable) : Prop :=
  ∃ row ∈ expected_freqs t, ∃ e ∈ row, e < 5

instance (t : ContingencyTable) : Decidable (chi2_assumption_violated t) := by
  unfold chi2_assumption_violated; exact List.decidableBEx _ _

/-- Which distribution the reported p-value comes from (the numeric value
is computed inside scipy and is not modelled). -/
inductive BarPValue
  | chi2Sf (statistic : ℚ) (dof : ℕ)
  | fisherExact (table : ContingencyTable)
  deriving DecidableEq, Repr

/-- The test names `BarStats._fit` can report; `fisherExactTest` stands for
the source string for the Fisher exact test, `chiSquare` for Chi-square. -/
inductive BarTestName
  | fisherExactTest
  | chiSquare
  deriving DecidableEq, Repr

/-- The statistical attributes `BarStats._fit` stores.  `cramers_v_sq` is
the square of the stored `cramers_v` (the code stores
`np.sqrt(chi2 / (n_obs * min_dim))`; the radicand determines it). -/
structure BarReport where
  test_name : BarTestName
  statistic : Option ℚ
  pvalue : BarPValue
  dof : Option ℕ
  cramers_v_sq : Option ℚ
  expected_frequencies : List (List ℚ)
  deriving DecidableEq, Repr

/-- Embedding of `BarStats._fit(approach, **kwargs)` (kwargs beyond the
defaults are not modelled). -/
def BarStats_fit (t : ContingencyTable) (is_paired : Bool) (approach : BarApproach) :
    Except PyError BarReport :=
  match approach with
  | .freq =>
    if is_paired then .error .notImplementedError
    else
      let expected := expected_freqs t
      if is_2x2 t ∨ chi2_assumption_violated t then
        .ok ⟨.fisherExactTest, none, .fisherExact t, none, none, expected⟩
      else
        let chi2 := chi2_statistic t
        let dof := chi2_dof t
        let min_dim := min (n_rows t) (n_cols t) - 1
        .ok ⟨.chiSquare, some chi2, .chi2Sf chi2 dof, some dof,
             some (chi2 / ((n_obs t : ℚ) * (min_dim : ℚ))), expected⟩
  | .bayes => .error .notImplementedError

/-- Embedding of the `thres_fisher` keyword of `BarStats.__init__`: the
parameter is accepted and bound but never read - `_fit` always compares
expected frequencies against the literal 5. -/
def BarStats_init (t : ContingencyTable) (approach : BarApproach) (is_paired : Bool)
    (thres_fisher : ℚ) : Except PyError BarReport :=
  BarStats_fit t is_paired approach

/-! ## Beeswarm layout (src/fleur/_utils/beeswarm.py)

The values of y are modelled as exact rationals.  np.argsort is not stable
on ties; the embedding fixes the tie order to ascending index. -/

/-- `nbins = int(np.ceil(len(y) / 6))`. -/
def nbins (n : ℕ) : ℕ := (n + 5) / 6

/-- `y.min()` of a nonempty array (0 for the empty one, unused). -/
def listMin : List ℚ → ℚ
  | [] => 0
  | a :: t => t.foldl min a

/-- `y.max()` of a nonempty array (0 for the empty one, unused). -/
def listMax : List ℚ → ℚ
  | [] => 0
  | a :: t => t.foldl max a

/-- Lower end of the histogram range: `np.histogram` widens a degenerate
range (all values equal) to (v - 0.5, v + 0.5). -/
def histLo (y : List ℚ) : ℚ :=
  if listMin y = listMax y then listMin y - 1 / 2 else listMin y

/-- Upper end of the histogram range (see `histLo`). -/
def histHi (y : List ℚ) : ℚ :=
  if listMin y = listMax y then listMax y + 1 / 2 else listMax y

/-- The bin edges `np.histogram` returns: nbins+1 equally spaced values
from `histLo` to `histHi`. -/
def edge (y : List ℚ) (i : ℕ) : ℚ :=
  histLo y + i * (histHi y - histLo y) / (nbins y.length : ℚ)

/-- Membership of a value in histogram bin i as `np.histogram` counts it:
half-open bins, the last bin closed on the right. -/
def inHistBin (y : List ℚ) (i : ℕ) (v : ℚ) : Bool :=
  decide (edge y i ≤ v) &&
    (if i + 1 = nbins y.length then decide (v ≤ edge y (i + 1))
     else decide (v < edge y (i + 1)))

/-- The count of histogram bin i. -/
def histCount (y : List ℚ) (i : ℕ) : ℕ :=
  (y.filter (fun v => inHistBin y i v)).length

/-- `counts.max()`. -/
def max_bin_count (y : List ℚ) : ℕ :=
  ((List.range (nbins y.length)).map (histCount y)).foldl max 0

/-- `dx = width / (max_bin_count // 2 + 1e-5)`. -/
def dx (y : List ℚ) (width : ℚ) : ℚ :=
  width / (((max_bin_count y / 2 : ℕ) : ℚ) + 1 / 100000)

/-- The indices the placement loop collects for the pair (ymin, ymax) of
consecutive edges: `np.where((y > ymin) & (y <= ymax))[0]`.  Note the
strict lower test: a value equal to the first edge lies in no bin. -/
def binMembers (y : List ℚ) (lo hi : ℚ) : List ℕ :=
  (List.range y.length).filter (fun j =>
    decide (lo < y.getD j 0) && decide (y.getD j 0 ≤ hi))

/-- `in_bin[np.argsort(y[in_bin])]`: the bin indices ordered by ascending
value, ties by ascending index. -/
def sortedBin (y : List ℚ) (lo hi : ℚ) : List ℕ :=
  (binMembers y lo hi).mergeSort (fun a b =>
    decide (y.getD a 0 < y.getD b 0) ||
      (decide (y.getD a 0 = y.getD b 0) && decide (a ≤ b)))

/-- The offset written for the point at position p of the sorted bin:
even positions (`left = sorted_indices[::2]`) get dx*(0.5+k) and odd
positions (`right = sorted_indices[1::2]`) get -dx*(0.5+k), where
k = p // 2 is the rank on that side. -/
def posOffset (d : ℚ) (p : ℕ) : ℚ :=
  if p % 2 = 0 then d * (1 / 2 + ((p / 2 : ℕ) : ℚ))
  else -(d * (1 / 2 + ((p / 2 : ℕ) : ℚ)))

/-- One iteration of the placement loop, rendered pointwise: the indices
of the bin receive their fresh offsets (the two numpy fancy assignments
write the disjoint even and odd positions of the sorted bin), all other
indices keep their previous offsets; an empty bin changes nothing, like
the `continue` in the source. -/
def processBin (y : List ℚ) (d lo hi : ℚ) (offsets : List ℚ) : List ℚ :=
  let s := sortedBin y lo hi
  (List.range y.length).map (fun j =>
    if j ∈ s then posOffset d (s.indexOf j) else offsets.getD j 0)

/-- Embedding of `_beeswarm(y, width)`: offsets start at zero and the loop
runs over the nbins pairs of consecutive edges. -/
def beeswarm (y : List ℚ) (width : ℚ) : List ℚ :=
  let d := dx y width
  (List.range (nbins y.length)).foldl
    (fun offs i => processBin y d (edge y i) (edge y (i + 1)) offs)
    (List.replicate y.length 0)

/-- The test of the placement loop for bin i: edge i < v and v ≤ edge (i+1). -/
def binPred (y : List ℚ) (v : ℚ) (i : ℕ) : Bool :=
  decide (edge y i < v) && decide (v ≤ edge y (i + 1))

/-- The unique placement bin of a value: the first bin i (if any) with
edge i < v and v ≤ edge (i+1).  Edges strictly increase, so at most one
bin qualifies. -/
def binIdx (y : List ℚ) (v : ℚ) : Option ℕ :=
  (List.range (nbins y.length)).find? (binPred y v)

/-- Closed-form offset of point j (the amended claim C3): points in no bin
(exactly those equal to the first edge, i.e. to the minimum when
min < max) keep offset 0; a point in a bin gets the alternating offset of
its rank in the bin sorted by ascending value. -/
def offsetAt (y : List ℚ) (width : ℚ) (j : ℕ) : ℚ :=
  match binIdx y (y.getD j 0) with
  | none => 0
  | some i => posOffset (dx y width) ((sortedBin y (edge y i) (edge y (i + 1))).indexOf j)

/-- Closed form of the whole offsets array. -/
def beeswarmSpec (y : List ℚ) (width : ℚ) : List ℚ :=
  (List.range y.length).map (offsetAt y width)

/-! Definitions following the WORDS of claim C3 (for its counterexample):
equal-width histogram bins over [min(y), max(y)], each point assigned to
its numpy histogram bin (first bin closed on the left), sorted ascending
within the bin, alternating sides with magnitudes dx*(0.5+k). -/

/-- Claim C3 bin edges: over [min(y), max(y)] as written. -/
def claimEdge (y : List ℚ) (i : ℕ) : ℚ :=
  listMin y + i * (listMax y - listMin y) / (nbins y.length : ℚ)

/-- Claim C3 bin membership: numpy histogram bins over the claim edges. -/
def claimInBin (y : List ℚ) (i : ℕ) (v : ℚ) : Bool :=
  decide (claimEdge y i ≤ v) &&
    (if i + 1 = nbins y.length then decide (v ≤ claimEdge y (i + 1))
     else decide (v < claimEdge y (i + 1)))

def claimBinMembers (y : List ℚ) (i : ℕ) : List ℕ :=
  (List.range y.length).filter (fun j => claimInBin y i (y.getD j 0))

def claimSortedBin (y : List ℚ) (i : ℕ) : List ℕ :=
  (claimBinMembers y i).mergeSort (fun a b =>
    decide (y.getD a 0 < y.getD b 0) ||
      (decide (y.getD a 0 = y.getD b 0) && decide (a ≤ b)))

def claimMaxBinCount (y : List ℚ) : ℕ :=
  ((List.range (nbins y.length)).map
    (fun i => (claimBinMembers y i).length)).foldl max 0

def claimDx (y : List ℚ) (width : ℚ) : ℚ :=
  width / (((claimMaxBinCount y / 2 : ℕ) : ℚ) + 1 / 100000)

def claimBinIdx (y : List ℚ) (v : ℚ) : Option ℕ :=
  (List.range (nbins y.length)).find? (fun i => claimInBin y i v)

/-- The offsets array that claim C3, read as written, predicts. -/
def beeswarmClaimed (y : List ℚ) (width : ℚ) : List ℚ :=
  (List.range y.length).map (fun j =>
    match claimBinIdx y (y.getD j 0) with
    | none => 0
    | some i => posOffset (claimDx y width) ((claimSortedBin y i).indexOf j))

/-! ## Theorems for C2 and C7 -/

/-- C2: `_infer_types(x, y, df)` returns `(x, y)` when column `x` is
categorical (String, Categorical or Enum dtype) and `y` is numeric,
returns `(y, x)` when `y` is categorical and `x` is numeric, and in every
other case (both categorical, both numeric, or a column that is neither)
raises `KeyError`.  Categorical and numeric dtypes are disjoint, so this is
exactly the case split of the claim. -/
theorem C2_infer_types (x y : String) (schema : Schema) :
    (is_categorical x schema = true → dtype_is_numeric (schema y) = true →
      infer_types x y schema = .ok (x, y)) ∧
    (dtype_is_numeric (schema x) = true → is_categorical y schema = true →
      infer_types x y schema = .ok (y, x)) ∧
    (¬ (is_categorical x schema = true ∧ dtype_is_numeric (schema y) = true) →
     ¬ (dtype_is_numeric (schema x) = true ∧ is_categorical y schema = true) →
      infer_types x y schema = .error .keyError) := by
  refine ⟨?_, ?_, ?_⟩ <;>
    · intro h1 h2
      cases hx : schema x <;> cases hy : schema y <;>
        simp_all [infer_types, is_categorical, is_numerical, dtype_is_numeric, hx, hy]

/-- Witness for C2: on a schema where column a is String-typed and column b
is Float64-typed, `_infer_types` returns (a, b). -/
theorem C2_infer_types_witness :
    infer_types "a" "b"
      (fun c => if c = "a" then NwDType.string else NwDType.float64) = .ok ("a", "b") :=
  (C2_infer_types "a" "b" _).1 (by decide) (by decide)

/-- C7: `_load_data` raises `ValueError` (before any read) whenever the
lowercased dataset name is not iris or mtcars, or the lowercased backend is
not one of the five allowed outputs; `load_iris` and `load_mtcars` with an
allowed backend read exactly the bundled iris.csv and mtcars.csv files. -/
theorem C7_load_data (name ras : String) :
    (AVAILABLE_DATASETS.contains (pyLower name) = false →
      load_data name ras = .valueError) ∧
    (AVAILABLE_OUTPUTS.contains (pyLower ras) = false →
      load_data name ras = .valueError) ∧
    (AVAILABLE_OUTPUTS.contains (pyLower ras) = true →
      load_iris ras = .readCsv "datasets/iris.csv" (pyLower ras) ∧
      load_mtcars ras = .readCsv "datasets/mtcars.csv" (pyLower ras)) := by
  refine ⟨?_, ?_, ?_⟩ <;> intro h
  · have hn : pyLower name ∉ AVAILABLE_DATASETS := by simpa using h
    simp [load_data, hn]
  · have hr : pyLower ras ∉ AVAILABLE_OUTPUTS := by simpa using h
    by_cases hd : pyLower name ∈ AVAILABLE_DATASETS <;> simp [load_data, hd, hr]
  · have hr : pyLower ras ∈ AVAILABLE_OUTPUTS := by simpa using h
    have e1 : pyLower "iris" = "iris" := by decide
    have e2 : pyLower "mtcars" = "mtcars" := by decide
    have e3 : "datasets/" ++ "iris" ++ ".csv" = "datasets/iris.csv" := by decide
    have e4 : "datasets/" ++ "mtcars" ++ ".csv" = "datasets/mtcars.csv" := by decide
    have h1 : ("iris" : String) ∈ AVAILABLE_DATASETS := by decide
    have h2 : ("mtcars" : String) ∈ AVAILABLE_DATASETS := by decide
    constructor <;>
      simp [load_iris, load_mtcars, load_data, hr, e1, e2, e3, e4, h1, h2]

/-- Witness for C7: a dataset name other than iris/mtcars is rejected, and
load_iris with backend polars reads the bundled iris.csv. -/
theorem C7_load_data_witness :
    load_data "penguins" "pandas" = .valueError ∧
    load_iris "Polars" = .readCsv "datasets/iris.csv" "polars" :=
  ⟨(C7_load_data "penguins" "pandas").1 (by decide),
   ((C7_load_data "iris" "Polars").2.2 (by decide)).1⟩

/-- C10: `summary()` raises RuntimeError exactly when `plot()` has not
completed beforehand: `__init__` leaves the fitted flag False, so summary
on a fresh instance raises; `plot` sets the flag only on normal completion
(any validation or library error leaves the state unchanged), and summary
raises precisely on an unfitted state. -/
theorem C10_summary_requires_plot :
    ScatterStats_init.is_fitted = false ∧
    (∀ s, ScatterStats_summary s = .error .runtimeError ↔ s.is_fitted = false) ∧
    (∀ args s s', ScatterStats_plot args s = .ok s' →
      s'.is_fitted = true ∧ ScatterStats_summary s' = .ok ()) ∧
    (∀ args s e, ScatterStats_plot args s = .error e →
      ScatterStats_plot args s ≠ .ok s) ∧
    ScatterStats_summary ScatterStats_init = .error .runtimeError := by
  refine ⟨rfl, ?_, ?_, ?_, rfl⟩
  · intro s
    cases h : s.is_fitted <;> simp [ScatterStats_summary, h]
  · intro args s s' hok
    unfold ScatterStats_plot at hok
    split at hok
    · exact absurd hok (by simp)
    · split at hok
      · exact absurd hok (by simp)
      · split at hok
        · exact absurd hok (by simp)
        · cases hok
          exact ⟨rfl, by simp [ScatterStats_summary]⟩
  · intro args s e herr hok
    rw [hok] at herr
    exact absurd herr (by simp)

/-- Witness for C10: a fresh instance rejects summary; after a completed
plot with valid arguments, summary succeeds. -/
theorem C10_summary_requires_plot_witness :
    ScatterStats_summary { is_fitted := true } = .ok () :=
  (C10_summary_requires_plot.2.2.1 ⟨"two-sided", "pearson", true⟩
    ScatterStats_init { is_fitted := true } rfl).2

/-- Counterexample for C5 as stated: two Series that share the name a are
accepted, but the dict keyed by the two names collapses, so the resulting
dataframe has one column, not the claimed two. -/
theorem C5_counterexample :
    (InputDataHandler (.series (some "a") [1]) (.series (some "a") [2]) none).isOk = true ∧
    Except.map (fun r => r.dataframe.length)
      (InputDataHandler (.series (some "a") [1]) (.series (some "a") [2]) none) = .ok 1 := by
  constructor <;> rfl

/-- C5 (amended): `_InputDataHandler` accepts exactly three input shapes.
Two strings require `data` (ValueError when it is missing or when either
name is not among its columns) and expose `data` itself; two Series or two
array-likes build a dataframe keyed by the two names - two columns when the
names differ, a single column holding the y values when the names
coincide; every mixed or unsupported pair raises TypeError; every accepted
case exposes a dataframe containing both names, the two names, and a
source tag. -/
theorem C5_input_handler (x y : PyInput) (data : Option Frame) :
    (∀ xs ys, x = .pystr xs → y = .pystr ys → data = none →
      InputDataHandler x y data = .error .valueError) ∧
    (∀ xs ys df, x = .pystr xs → y = .pystr ys → data = some df →
      ((xs ∉ frame_columns df ∨ ys ∉ frame_columns df) →
        InputDataHandler x y data = .error .valueError) ∧
      (xs ∈ frame_columns df → ys ∈ frame_columns df →
        InputDataHandler x y data =
          .ok { x_name := xs, y_name := ys, dataframe := df, source := "dataframe" })) ∧
    (∀ xn xv yn yv, x = .series xn xv → y = .series yn yv →
      InputDataHandler x y data =
        .ok { x_name := py_or xn "x", y_name := py_or yn "y",
              dataframe := from_dict (py_or xn "x") xv (py_or yn "y") yv,
              source := "series" } ∧
      (py_or xn "x" ≠ py_or yn "y" →
        from_dict (py_or xn "x") xv (py_or yn "y") yv =
          [(py_or xn "x", xv), (py_or yn "y", yv)]) ∧
      (py_or xn "x" = py_or yn "y" →
        from_dict (py_or xn "x") xv (py_or yn "y") yv = [(py_or xn "x", yv)])) ∧
    (∀ xv yv, x = .array xv → y = .array yv →
      InputDataHandler x y data =
        .ok { x_name := "x", y_name := "y",
              dataframe := [("x", xv), ("y", yv)], source := "array" }) ∧
    ((match x, y with
      | .pystr _, .pystr _ => False
      | .series _ _, .series _ _ => False
      | .array _, .array _ => False
      | _, _ => True) →
      InputDataHandler x y data = .error .typeError) ∧
    (∀ r, InputDataHandler x y data = .ok r →
      r.x_name ∈ frame_columns r.dataframe ∧
      r.y_name ∈ frame_columns r.dataframe) := by
  refine ⟨?_, ?_, ?_, ?_, ?_, ?_⟩
  · rintro xs ys rfl rfl rfl
    rfl
  · rintro xs ys df rfl rfl rfl
    constructor
    · intro hmiss
      simp [InputDataHandler, hmiss]
    · intro hx hy
      have : ¬ (xs ∉ frame_columns df ∨ ys ∉ frame_columns df) := by
        push_neg
        exact ⟨hx, hy⟩
      simp [InputDataHandler, this, hx, hy]
  · rintro xn xv yn yv rfl rfl
    refine ⟨rfl, ?_, ?_⟩
    · intro hne
      simp [from_dict, hne]
    · intro heq
      simp [from_dict, heq]
  · rintro xv yv rfl rfl
    have hxy : ("x" : String) ≠ "y" := by decide
    simp [InputDataHandler, from_dict, hxy]
  · intro hmix
    cases x <;> cases y <;> simp_all [InputDataHandler]
  · intro r hok
    unfold InputDataHandler at hok
    split at hok
    · rename_i xs ys
      split at hok
      · exact absurd hok (by simp)
      · rename_i df
        split at hok
        · exact absurd hok (by simp)
        · rename_i hcond
          push_neg at hcond
          cases hok
          exact hcond
    · rename_i xn xv yn yv
      cases hok
      by_cases h : py_or xn "x" = py_or yn "y" <;>
        simp [from_dict, frame_columns, h]
    · rename_i xv yv
      cases hok
      simp [from_dict, frame_columns]
    · exact absurd hok (by simp)

/-- Witness for C5: two plain arrays are accepted and produce the
two-column dataframe with default names. -/
theorem C5_input_handler_witness :
    InputDataHandler (.array [1, 2]) (.array [3, 4]) none =
      .ok { x_name := "x", y_name := "y",
            dataframe := [("x", [1, 2]), ("y", [3, 4])], source := "array" } :=
  (C5_input_handler (.array [1, 2]) (.array [3, 4]) none).2.2.2.1 [1, 2] [3, 4] rfl rfl

/-- Counterexample for C1 as stated: with 3 categories, unpaired and
parametric, passing `equal_var=False` in kwargs makes `_fit` raise
NotImplementedError without running `scipy.stats.f_oneway`, so the test
run is not determined by (category count, paired flag, approach) alone. -/
theorem C1_counterexample :
    (BetweenStats_fit 3 false .parametric ⟨true, false⟩).testRun = none ∧
    (BetweenStats_fit 3 false .parametric ⟨true, false⟩).raised =
      some .notImplementedError :=
  ⟨rfl, rfl⟩

/-- C1 (amended): the test selection of `BetweenStats._fit`.  With 2
categories: paired+parametric runs ttest_rel, paired+nonparametric runs
wilcoxon, unpaired+parametric runs ttest_ind, unpaired+nonparametric runs
mannwhitneyu.  With 3 or more categories, unpaired+parametric runs
f_oneway unless kwargs carry `equal_var=False`, which raises
NotImplementedError (Welch ANOVA unimplemented); unpaired+nonparametric
runs kruskal.  `is_ANOVA` is True exactly when there are 3 or more
categories.  Fewer than 2 categories raises ValueError, and the
unimplemented combinations (paired with 3 or more categories, robust and
bayes where unsupported) raise NotImplementedError. -/
theorem C1_test_selection (n : ℕ) (p : Bool) (a : Approach) (kw : BetweenKwargs) :
    (n < 2 → BetweenStats_fit n p a kw = ⟨some .valueError, none, none, none⟩) ∧
    (n = 2 → p = true → a = .parametric →
      (BetweenStats_fit n p a kw).testRun = some .ttest_rel) ∧
    (n = 2 → p = true → a = .nonparametric →
      (BetweenStats_fit n p a kw).testRun = some .wilcoxon) ∧
    (n = 2 → p = false → a = .parametric →
      (BetweenStats_fit n p a kw).testRun = some .ttest_ind) ∧
    (n = 2 → p = false → a = .nonparametric →
      (BetweenStats_fit n p a kw).testRun = some .mannwhitneyu) ∧
    (3 ≤ n → p = false → a = .parametric →
      ¬ (kw.has_equal_var = true ∧ kw.equal_var = false) →
      (BetweenStats_fit n p a kw).testRun = some .f_oneway) ∧
    (3 ≤ n → p = false → a = .parametric →
      kw.has_equal_var = true → kw.equal_var = false →
      (BetweenStats_fit n p a kw).testRun = none ∧
      (BetweenStats_fit n p a kw).raised = some .notImplementedError) ∧
    (3 ≤ n → p = false → a = .nonparametric →
      (BetweenStats_fit n p a kw).testRun = some .kruskal) ∧
    ((BetweenStats_fit n p a kw).is_ANOVA = some true ↔ 3 ≤ n) ∧
    (3 ≤ n → p = true →
      (BetweenStats_fit n p a kw).raised = some .notImplementedError ∧
      (BetweenStats_fit n p a kw).testRun = none) ∧
    (n = 2 → p = true → (a = .robust ∨ a = .bayes) →
      (BetweenStats_fit n p a kw).raised = some .notImplementedError ∧
      (BetweenStats_fit n p a kw).testRun = none) ∧
    (n = 2 → p = false → a = .bayes →
      (BetweenStats_fit n p a kw).raised = some .notImplementedError ∧
      (BetweenStats_fit n p a kw).testRun = none) ∧
    (3 ≤ n → p = false → (a = .robust ∨ a = .bayes) →
      (BetweenStats_fit n p a kw).raised = some .notImplementedError ∧
      (BetweenStats_fit n p a kw).testRun = none) := by
  rcases kw with ⟨hev, ev⟩
  rcases Nat.lt_or_ge n 2 with hn | hn
  · have hne : n ≠ 2 := by omega
    have h3 : ¬ 3 ≤ n := by omega
    cases p <;> cases a <;> cases hev <;> cases ev <;>
      simp [BetweenStats_fit, hn, hne, h3]
  · by_cases hn2 : n = 2
    · subst hn2
      have hlt : ¬ (2 : ℕ) < 2 := by omega
      have h3 : ¬ (3 : ℕ) ≤ 2 := by omega
      cases p <;> cases a <;> cases hev <;> cases ev <;>
        simp [BetweenStats_fit, hlt, h3]
    · have hlt : ¬ n < 2 := by omega
      have h3 : 3 ≤ n := by omega
      cases p <;> cases a <;> cases hev <;> cases ev <;>
        simp [BetweenStats_fit, hlt, hn2, h3]

/-- Witness for C1: with 3 categories, unpaired, parametric and no
equal_var kwarg, the invoked test is f_oneway. -/
theorem C1_test_selection_witness :
    (BetweenStats_fit 3 false .parametric ⟨false, false⟩).testRun = some .f_oneway :=
  (C1_test_selection 3 false .parametric ⟨false, false⟩).2.2.2.2.2.1
    (by omega) rfl rfl (by simp)

/-- C6: with approach freq and unpaired data, `_fit` first computes the
chi-square contingency test (storing its expected frequencies), then
reports Fisher exact (statistic None) if and only if the table is 2x2 or
some expected frequency is below 5, and otherwise reports the chi-square
statistic, p-value, dof and the Cramer V whose square is
chi2 / (n_obs * (min(table dims) - 1)); paired raises NotImplementedError
and approach bayes raises NotImplementedError. -/
theorem C6_barstats_fit (t : ContingencyTable) (p : Bool) (a : BarApproach) :
    (a = .bayes → BarStats_fit t p a = .error .notImplementedError) ∧
    (a = .freq → p = true → BarStats_fit t p a = .error .notImplementedError) ∧
    (a = .freq → p = false →
      ((is_2x2 t ∨ chi2_assumption_violated t) →
        BarStats_fit t p a =
          .ok ⟨.fisherExactTest, none, .fisherExact t, none, none, expected_freqs t⟩) ∧
      (¬ (is_2x2 t ∨ chi2_assumption_violated t) →
        BarStats_fit t p a =
          .ok ⟨.chiSquare, some (chi2_statistic t),
               .chi2Sf (chi2_statistic t) (chi2_dof t), some (chi2_dof t),
               some (chi2_statistic t /
                 ((n_obs t : ℚ) * ((min (n_rows t) (n_cols t) - 1 : ℕ) : ℚ))),
               expected_freqs t⟩) ∧
      (∀ r, BarStats_fit t p a = .ok r →
        ((r.test_name = .fisherExactTest ∧ r.statistic = none) ↔
          (is_2x2 t ∨ chi2_assumption_violated t)))) := by
  refine ⟨?_, ?_, ?_⟩
  · rintro rfl
    rfl
  · rintro rfl rfl
    rfl
  · rintro rfl rfl
    refine ⟨?_, ?_, ?_⟩
    · intro hcond
      simp [BarStats_fit, hcond]
    · intro hcond
      simp [BarStats_fit, hcond]
    · intro r hok
      by_cases hcond : is_2x2 t ∨ chi2_assumption_violated t <;>
        simp [BarStats_fit, hcond] at hok <;> subst hok <;> simp [hcond]

/-- Witness for C6: a 2x2 table is reported via Fisher exact with
statistic None, and a 2x3 table with all expected frequencies equal to 10
is reported via chi-square. -/
theorem C6_barstats_fit_witness :
    BarStats_fit [[1, 2], [3, 4]] false .freq =
      .ok ⟨.fisherExactTest, none, .fisherExact [[1, 2], [3, 4]], none, none,
           expected_freqs [[1, 2], [3, 4]]⟩ ∧
    BarStats_fit [[10, 10, 10], [10, 10, 10]] false .freq =
      .ok ⟨.chiSquare, some (chi2_statistic [[10, 10, 10], [10, 10, 10]]),
           .chi2Sf (chi2_statistic [[10, 10, 10], [10, 10, 10]])
             (chi2_dof [[10, 10, 10], [10, 10, 10]]),
           some (chi2_dof [[10, 10, 10], [10, 10, 10]]),
           some (chi2_statistic [[10, 10, 10], [10, 10, 10]] /
             ((n_obs [[10, 10, 10], [10, 10, 10]] : ℚ) *
              ((min (n_rows [[10, 10, 10], [10, 10, 10]])
                    (n_cols [[10, 10, 10], [10, 10, 10]]) - 1 : ℕ) : ℚ))),
           expected_freqs [[10, 10, 10], [10, 10, 10]]⟩ :=
  ⟨(((C6_barstats_fit [[1, 2], [3, 4]] false .freq).2.2 rfl rfl).1
      (Or.inl ⟨rfl, rfl⟩)),
   (((C6_barstats_fit [[10, 10, 10], [10, 10, 10]] false .freq).2.2 rfl rfl).2.1
      (by
        rintro (⟨h2, h3⟩ | hviol)
        · exact absurd h3 (by decide)
        · have hexp : expected_freqs [[10, 10, 10], [10, 10, 10]] =
              [[10, 10, 10], [10, 10, 10]] := by
            norm_num [expected_freqs, n_rows, n_cols, n_obs, rowSum, colSum,
              List.range_succ]
          unfold chi2_assumption_violated at hviol
          rw [hexp] at hviol
          obtain ⟨row, hrow, e, he, hlt⟩ := hviol
          simp at hrow
          rcases hrow with rfl | rfl <;> simp at he <;> rcases he with rfl | rfl | rfl <;>
            norm_num at hlt))⟩

/-- C8: `thres_fisher` has no effect on any computed result: two
constructions on the same table, approach and paired flag that differ only
in `thres_fisher` (including 0) produce identical reports. -/
theorem C8_thres_fisher_unused (t : ContingencyTable) (a : BarApproach) (p : Bool)
    (t1 t2 : ℚ) : BarStats_init t a p t1 = BarStats_init t a p t2 := rfl

/-! ## Helper lemmas for the beeswarm proofs -/

theorem nbins_pos {n : ℕ} (h : 0 < n) : 0 < nbins n := by
  unfold nbins
  omega

theorem foldl_min_le_acc (t : List ℚ) (a : ℚ) : t.foldl min a ≤ a := by
  induction t generalizing a with
  | nil => exact le_refl a
  | cons b t ih =>
    rw [List.foldl_cons]
    exact le_trans (ih (min a b)) (min_le_left a b)

theorem foldl_min_le_mem (t : List ℚ) (a : ℚ) {v : ℚ} (hv : v ∈ t) :
    t.foldl min a ≤ v := by
  induction t generalizing a with
  | nil => cases hv
  | cons b t ih =>
    rw [List.foldl_cons]
    rcases List.mem_cons.1 hv with rfl | hv
    · exact le_trans (foldl_min_le_acc t (min a v)) (min_le_right a v)
    · exact ih (min a b) hv

theorem acc_le_foldl_max (t : List ℚ) (a : ℚ) : a ≤ t.foldl max a := by
  induction t generalizing a with
  | nil => exact le_refl a
  | cons b t ih =>
    rw [List.foldl_cons]
    exact le_trans (le_max_left a b) (ih (max a b))

theorem mem_le_foldl_max (t : List ℚ) (a : ℚ) {v : ℚ} (hv : v ∈ t) :
    v ≤ t.foldl max a := by
  induction t generalizing a with
  | nil => cases hv
  | cons b t ih =>
    rw [List.foldl_cons]
    rcases List.mem_cons.1 hv with rfl | hv
    · exact le_trans (le_max_right a v) (acc_le_foldl_max t (max a v))
    · exact ih (max a b) hv

theorem listMin_le_of_mem {y : List ℚ} {v : ℚ} (hv : v ∈ y) : listMin y ≤ v := by
  cases y with
  | nil => cases hv
  | cons a t =>
    rcases List.mem_cons.1 hv with rfl | hv
    · exact foldl_min_le_acc t v
    · exact foldl_min_le_mem t a hv

theorem le_listMax_of_mem {y : List ℚ} {v : ℚ} (hv : v ∈ y) : v ≤ listMax y := by
  cases y with
  | nil => cases hv
  | cons a t =>
    rcases List.mem_cons.1 hv with rfl | hv
    · exact acc_le_foldl_max t v
    · exact mem_le_foldl_max t a hv

theorem listMin_le_listMax {y : List ℚ} (hy : y ≠ []) : listMin y ≤ listMax y := by
  cases y with
  | nil => exact absurd rfl hy
  | cons a t =>
    exact le_trans (listMin_le_of_mem (List.mem_cons_self a t))
      (le_listMax_of_mem (List.mem_cons_self a t))

theorem histLo_lt_histHi {y : List ℚ} (hy : y ≠ []) : histLo y < histHi y := by
  unfold histLo histHi
  by_cases h : listMin y = listMax y
  · rw [if_pos h, if_pos h, h]
    linarith
  · rw [if_neg h, if_neg h]
    exact lt_of_le_of_ne (listMin_le_listMax hy) h

theorem edge_strict_mono {y : List ℚ} (hy : y ≠ []) {i j : ℕ} (hij : i < j) :
    edge y i < edge y j := by
  unfold edge
  have hnb : 0 < nbins y.length := nbins_pos (List.length_pos.2 hy)
  have hc : 0 < (histHi y - histLo y) / (nbins y.length : ℚ) :=
    div_pos (sub_pos.2 (histLo_lt_histHi hy)) (by exact_mod_cast hnb)
  have hcast : (i : ℚ) < (j : ℚ) := by exact_mod_cast hij
  have := mul_lt_mul_of_pos_right hcast hc
  rw [← mul_div_assoc, ← mul_div_assoc] at this
  linarith

theorem edge_mono {y : List ℚ} (hy : y ≠ []) {i j : ℕ} (hij : i ≤ j) :
    edge y i ≤ edge y j := by
  rcases Nat.eq_or_lt_of_le hij with rfl | h
  · exact le_refl _
  · exact le_of_lt (edge_strict_mono hy h)

theorem edge_zero (y : List ℚ) : edge y 0 = histLo y := by
  simp [edge]

theorem edge_last {y : List ℚ} (hy : y ≠ []) :
    edge y (nbins y.length) = histHi y := by
  unfold edge
  have hnb : 0 < nbins y.length := nbins_pos (List.length_pos.2 hy)
  have hne : (nbins y.length : ℚ) ≠ 0 := by
    exact_mod_cast Nat.pos_iff_ne_zero.1 hnb
  field_simp

theorem bin_unique {y : List ℚ} (hy : y ≠ []) {v : ℚ} {i j : ℕ}
    (hi : binPred y v i = true) (hj : binPred y v j = true) : i = j := by
  unfold binPred at hi hj
  simp only [Bool.and_eq_true, decide_eq_true_eq] at hi hj
  by_contra hne
  rcases Nat.lt_or_ge i j with h | h
  · have h1 : edge y (i + 1) ≤ edge y j := edge_mono hy (by omega)
    linarith [hi.2, hj.1]
  · have hji : j < i := by omega
    have h1 : edge y (j + 1) ≤ edge y i := edge_mono hy (by omega)
    linarith [hj.2, hi.1]

theorem mem_sortedBin_iff {y : List ℚ} {lo hi : ℚ} {j : ℕ} :
    j ∈ sortedBin y lo hi ↔
      j < y.length ∧ lo < y.getD j 0 ∧ y.getD j 0 ≤ hi := by
  unfold sortedBin binMembers
  rw [(List.mergeSort_perm _ _).mem_iff, List.mem_filter, List.mem_range]
  simp

theorem nodup_sortedBin (y : List ℚ) (lo hi : ℚ) : (sortedBin y lo hi).Nodup :=
  (List.mergeSort_perm _ _).symm.nodup ((List.nodup_range _).filter _)

theorem getD_map_range {f : ℕ → ℚ} {n j : ℕ} (hj : j < n) :
    ((List.range n).map f).getD j 0 = f j := by
  rw [List.getD_eq_getElem?_getD, List.getElem?_map, List.getElem?_range hj]
  rfl

theorem getD_replicate_zero {n j : ℕ} : (List.replicate n (0 : ℚ)).getD j 0 = 0 := by
  rw [List.getD_eq_getElem?_getD, List.getElem?_replicate]
  split <;> rfl

theorem find?_range_succ (p : ℕ → Bool) (k : ℕ) :
    (List.range (k + 1)).find? p =
      ((List.range k).find? p).or (if p k then some k else none) := by
  rw [List.range_succ, List.find?_append]
  congr 1
  cases hpk : p k <;> simp [List.find?_cons, hpk]

theorem dx_pos {y : List ℚ} {w : ℚ} (hw : 0 < w) : 0 < dx y w := by
  unfold dx
  apply div_pos hw
  positivity

theorem posOffset_inj {d : ℚ} (hd : 0 < d) {p q : ℕ} (hpq : p ≠ q) :
    posOffset d p ≠ posOffset d q := by
  have hp2 : (0 : ℚ) < 1 / 2 + ((p / 2 : ℕ) : ℚ) := by positivity
  have hq2 : (0 : ℚ) < 1 / 2 + ((q / 2 : ℕ) : ℚ) := by positivity
  unfold posOffset
  by_cases hp : p % 2 = 0 <;> by_cases hq : q % 2 = 0 <;>
    simp only [hp, hq, if_pos, if_neg, if_true, if_false] <;> intro heq
  · have hAB : (1 / 2 + ((p / 2 : ℕ) : ℚ)) = 1 / 2 + ((q / 2 : ℕ) : ℚ) :=
      mul_left_cancel₀ (ne_of_gt hd) heq
    have h1 : ((p / 2 : ℕ) : ℚ) = ((q / 2 : ℕ) : ℚ) := by linarith
    have h2 : p / 2 = q / 2 := Nat.cast_injective h1
    omega
  · have h1 : 0 < d * (1 / 2 + ((p / 2 : ℕ) : ℚ)) := mul_pos hd hp2
    have h2 : -(d * (1 / 2 + ((q / 2 : ℕ) : ℚ))) < 0 := by
      have := mul_pos hd hq2
      linarith
    linarith [heq ▸ h1]
  · have h1 : 0 < d * (1 / 2 + ((q / 2 : ℕ) : ℚ)) := mul_pos hd hq2
    have h2 : -(d * (1 / 2 + ((p / 2 : ℕ) : ℚ))) < 0 := by
      have := mul_pos hd hp2
      linarith
    linarith [heq ▸ h2]
  · have hAB : (1 / 2 + ((p / 2 : ℕ) : ℚ)) = 1 / 2 + ((q / 2 : ℕ) : ℚ) := by
      have := neg_injective heq
      exact mul_left_cancel₀ (ne_of_gt hd) this
    have h1 : ((p / 2 : ℕ) : ℚ) = ((q / 2 : ℕ) : ℚ) := by linarith
    have h2 : p / 2 = q / 2 := Nat.cast_injective h1
    omega

/-- Invariant of the placement loop: after processing the first k bins,
point j carries the closed-form offset of the first among those bins that
contains it, or 0 when none does. -/
theorem beeswarm_loop_eq (y : List ℚ) (w : ℚ) (hy : y ≠ []) :
    ∀ k, k ≤ nbins y.length →
    (List.range k).foldl
      (fun offs i => processBin y (dx y w) (edge y i) (edge y (i + 1)) offs)
      (List.replicate y.length 0) =
    (List.range y.length).map (fun j =>
      match (List.range k).find? (binPred y (y.getD j 0)) with
      | none => 0
      | some i =>
        posOffset (dx y w) ((sortedBin y (edge y i) (edge y (i + 1))).indexOf j)) := by
  intro k
  induction k with
  | zero =>
    intro _
    simp only [List.range_zero, List.foldl_nil, List.find?_nil]
    apply List.ext_getElem
    · simp
    · intro j h1 h2
      simp [List.getElem_replicate]
  | succ k ih =>
    intro hk
    rw [List.range_succ, List.foldl_append, List.foldl_cons, List.foldl_nil,
      ih (by omega)]
    unfold processBin
    apply List.map_congr_left
    intro j hj
    rw [List.mem_range] at hj
    by_cases hmem : j ∈ sortedBin y (edge y k) (edge y (k + 1))
    · have hprops := mem_sortedBin_iff.1 hmem
      have hpk : binPred y (y.getD j 0) k = true := by
        unfold binPred
        simp only [Bool.and_eq_true, decide_eq_true_eq]
        exact ⟨hprops.2.1, hprops.2.2⟩
      have hnone : (List.range k).find? (binPred y (y.getD j 0)) = none := by
        rw [List.find?_eq_none]
        intro i hi hpi
        have heq := bin_unique hy hpi hpk
        rw [List.mem_range] at hi
        omega
      have hfind1 : List.find? (binPred y (y.getD j 0)) [k] = some k := by
        rw [List.find?_cons, hpk]
      rw [if_pos hmem, List.find?_append, hnone, hfind1]
      rfl
    · have hpk : binPred y (y.getD j 0) k = false := by
        unfold binPred
        rw [Bool.eq_false_iff]
        intro hcontra
        simp only [Bool.and_eq_true, decide_eq_true_eq] at hcontra
        exact hmem (mem_sortedBin_iff.2 ⟨hj, hcontra.1, hcontra.2⟩)
      have hone : List.find? (binPred y (y.getD j 0)) [k] = none := by
        rw [List.find?_cons, hpk]
        rfl
      rw [if_neg hmem, getD_map_range hj, List.find?_append, hone]
      cases List.find? (binPred y (y.getD j 0)) (List.range k) <;> rfl

/-- The loop of `_beeswarm` computes exactly the closed-form offsets. -/
theorem beeswarm_eq_spec {y : List ℚ} (w : ℚ) (hy : y ≠ []) :
    beeswarm y w = beeswarmSpec y w := by
  unfold beeswarm beeswarmSpec
  rw [beeswarm_loop_eq y w hy (nbins y.length) (le_refl _)]
  apply List.map_congr_left
  intro j hj
  rfl

/-! ## Theorems for C3, C4 and C9 -/

/-- Counterexample for C3 as stated: on y = [0, 1] the code and the
claimed layout disagree.  The claimed numpy-histogram binning over
[min, max] puts the minimum into the first bin (so it would get offset
dx/2), but the placement loop tests `y > ymin` strictly, leaves the
minimum in no bin, and keeps its offset 0. -/
theorem C3_counterexample :
    beeswarm [0, 1] 1 ≠ beeswarmClaimed [0, 1] 1 ∧
    (beeswarm [0, 1] 1).getD 0 0 = 0 ∧
    (beeswarmClaimed [0, 1] 1).getD 0 0 = 50000 / 100001 := by
  have h1 : beeswarm [0, 1] 1 = [0, 50000 / 100001] := by
    norm_num [beeswarm, dx, max_bin_count, histCount, inHistBin, edge, histLo,
      histHi, listMin, listMax, nbins, List.range_succ, processBin, sortedBin,
      binMembers, List.mergeSort, posOffset, min_def, max_def]
  have h2 : beeswarmClaimed [0, 1] 1 = [50000 / 100001, -(50000 / 100001)] := by
    norm_num [beeswarmClaimed, claimBinIdx, claimDx, claimMaxBinCount,
      claimSortedBin, claimBinMembers, claimInBin, claimEdge, listMin, listMax,
      nbins, List.range_succ, List.mergeSort, posOffset, min_def, max_def]
  refine ⟨?_, ?_, ?_⟩
  · rw [h1, h2]
    intro h
    simp only [List.cons.injEq] at h
    norm_num at h
  · rw [h1]
    rfl
  · rw [h2]
    rfl

/-- C3 (amended): `_beeswarm(y, width)` equals its closed form: ceil(n/6)
equal-width bins between the histogram edges (over [min, max], widened by
half a unit on each side when all values are equal); a point strictly
above the first edge lands in the unique bin (previous edge, next edge]
and gets the alternating offset of its rank in the bin sorted by
ascending value, with magnitude dx*(0.5 + rank on its side) where
dx = width / (max histogram bin count // 2 + 1e-5); a point equal to the
first edge (the minimum, when min < max) stays at offset 0. -/
theorem C3_beeswarm_layout (y : List ℚ) (w : ℚ) (hy : y ≠ []) :
    beeswarm y w = beeswarmSpec y w :=
  beeswarm_eq_spec w hy

/-- Witness for C3: the closed form agrees with the loop on a concrete
array. -/
theorem C3_beeswarm_layout_witness :
    beeswarm [3, 1, 2] 1 = beeswarmSpec [3, 1, 2] 1 :=
  C3_beeswarm_layout [3, 1, 2] 1 (by simp)

/-- Counterexample for C4 as stated: in y = [0, 0, 1] the two zeros are
equal values at distinct indices, yet both keep the offset 0, because
values equal to the minimum fall into no placement bin. -/
theorem C4_counterexample :
    ([0, 0, 1] : List ℚ).getD 0 0 = ([0, 0, 1] : List ℚ).getD 1 0 ∧
    (beeswarm [0, 0, 1] 1).getD 0 0 = (beeswarm [0, 0, 1] 1).getD 1 0 := by
  have he : beeswarm [0, 0, 1] 1 = [0, 0, 50000 / 100001] := by
    norm_num [beeswarm, dx, max_bin_count, histCount, inHistBin, edge, histLo,
      histHi, listMin, listMax, nbins, List.range_succ, processBin, sortedBin,
      binMembers, List.mergeSort, posOffset, min_def, max_def]
  exact ⟨rfl, by rw [he]; rfl⟩

/-- C4 (amended): for positive width, any two distinct indices whose
y-values are equal and different from the minimum receive distinct
x-offsets (equal values share a bin; within a bin every point has a
distinct rank and the alternating offsets are injective in the rank). -/
theorem C4_equal_values_distinct_offsets (y : List ℚ) (w : ℚ) (j k : ℕ)
    (hw : 0 < w) (hj : j < y.length) (hk : k < y.length) (hjk : j ≠ k)
    (hval : y.getD j 0 = y.getD k 0) (hmin : y.getD j 0 ≠ listMin y) :
    (beeswarm y w).getD j 0 ≠ (beeswarm y w).getD k 0 := by
  have hy : y ≠ [] := by
    intro h
    rw [h] at hj
    simp at hj
  rw [beeswarm_eq_spec w hy]
  unfold beeswarmSpec
  rw [getD_map_range hj, getD_map_range hk]
  have hvmem : y.getD j 0 ∈ y := by
    rw [List.getD_eq_getElem y 0 hj]
    exact List.getElem_mem hj
  have hminlt : listMin y < y.getD j 0 :=
    lt_of_le_of_ne (listMin_le_of_mem hvmem) (Ne.symm hmin)
  have hmaxge : y.getD j 0 ≤ listMax y := le_listMax_of_mem hvmem
  have hmm : listMin y < listMax y := lt_of_lt_of_le hminlt hmaxge
  have hlo : histLo y = listMin y := if_neg (ne_of_lt hmm)
  have hhi : histHi y = listMax y := if_neg (ne_of_lt hmm)
  have hlast : y.getD j 0 ≤ edge y (nbins y.length) := by
    rw [edge_last hy, hhi]
    exact hmaxge
  have hQex : ∃ m, y.getD j 0 ≤ edge y m := ⟨nbins y.length, hlast⟩
  have hm0 : y.getD j 0 ≤ edge y (Nat.find hQex) := Nat.find_spec hQex
  have hm0le : Nat.find hQex ≤ nbins y.length := Nat.find_min' hQex hlast
  have hm0ne : Nat.find hQex ≠ 0 := by
    intro h0
    rw [h0, edge_zero, hlo] at hm0
    exact absurd hm0 (not_le.2 hminlt)
  obtain ⟨i0, hi0⟩ : ∃ i, Nat.find hQex = i + 1 :=
    ⟨Nat.find hQex - 1, by omega⟩
  have hi0lt : edge y i0 < y.getD j 0 := by
    by_contra hge
    push_neg at hge
    have := Nat.find_min' hQex hge
    omega
  have hpred : binPred y (y.getD j 0) i0 = true := by
    unfold binPred
    simp only [Bool.and_eq_true, decide_eq_true_eq]
    exact ⟨hi0lt, by rw [← hi0]; exact hm0⟩
  have hi0nb : i0 < nbins y.length := by omega
  have hsome : ((List.range (nbins y.length)).find? (binPred y (y.getD j 0))).isSome :=
    List.find?_isSome.2 ⟨i0, List.mem_range.2 hi0nb, hpred⟩
  obtain ⟨i1, hi1⟩ := Option.isSome_iff_exists.1 hsome
  have hpred1 := List.find?_some hi1
  unfold binPred at hpred1
  simp only [Bool.and_eq_true, decide_eq_true_eq] at hpred1
  have hbj : binIdx y (y.getD j 0) = some i1 := hi1
  have hbk : binIdx y (y.getD k 0) = some i1 := by
    rw [← hval]
    exact hbj
  unfold offsetAt
  rw [hbj, hbk]
  have hjs : j ∈ sortedBin y (edge y i1) (edge y (i1 + 1)) :=
    mem_sortedBin_iff.2 ⟨hj, hpred1.1, hpred1.2⟩
  have hks : k ∈ sortedBin y (edge y i1) (edge y (i1 + 1)) :=
    mem_sortedBin_iff.2 ⟨hk, by rw [← hval]; exact hpred1.1,
      by rw [← hval]; exact hpred1.2⟩
  have hneq : (sortedBin y (edge y i1) (edge y (i1 + 1))).indexOf j ≠
      (sortedBin y (edge y i1) (edge y (i1 + 1))).indexOf k := by
    intro h
    exact hjk ((List.indexOf_inj hjs hks).1 h)
  exact posOffset_inj (dx_pos hw) hneq

/-- Witness for C4: in y = [0, 1, 1] the two ones (indices 1 and 2, value
above the minimum) receive distinct offsets. -/
theorem C4_equal_values_distinct_offsets_witness :
    (beeswarm [0, 1, 1] 1).getD 1 0 ≠ (beeswarm [0, 1, 1] 1).getD 2 0 :=
  C4_equal_values_distinct_offsets [0, 1, 1] 1 1 2 (by norm_num) (by simp)
    (by simp) (by omega) rfl
    (by norm_num [listMin, min_def])

/-- Counterexample for C9 as stated: on the all-equal array [5] numpy
widens the histogram range to (4.5, 5.5), the single point then lies
strictly inside its bin, and its offset is dx/2 = 50000, not 0. -/
theorem C9_counterexample : (beeswarm [5] 1).getD 0 0 ≠ 0 := by
  have he : beeswarm [5] 1 = [50000] := by
    norm_num [beeswarm, dx, max_bin_count, histCount, inHistBin, edge, histLo,
      histHi, listMin, listMax, nbins, List.range_succ, processBin, sortedBin,
      binMembers, List.mergeSort, posOffset, min_def, max_def]
  rw [he]
  norm_num

/-- C9 (amended): when min(y) < max(y), every element equal to the global
minimum keeps offset exactly 0, because bin membership uses the strict
lower-edge test `y > ymin`, so the minimum falls into no bin and keeps its
zero initialization. -/
theorem C9_minimum_keeps_zero_offset (y : List ℚ) (w : ℚ) (j : ℕ)
    (hj : j < y.length) (hmm : listMin y < listMax y)
    (hv : y.getD j 0 = listMin y) :
    (beeswarm y w).getD j 0 = 0 := by
  have hy : y ≠ [] := by
    intro h
    rw [h] at hj
    simp at hj
  rw [beeswarm_eq_spec w hy]
  unfold beeswarmSpec
  rw [getD_map_range hj]
  unfold offsetAt
  have hnone : binIdx y (y.getD j 0) = none := by
    unfold binIdx
    rw [List.find?_eq_none]
    intro i hi hp
    unfold binPred at hp
    simp only [Bool.and_eq_true, decide_eq_true_eq] at hp
    have hlo : histLo y = listMin y := if_neg (ne_of_lt hmm)
    have h0 : edge y 0 ≤ edge y i := edge_mono hy (Nat.zero_le i)
    rw [edge_zero, hlo, ← hv] at h0
    exact absurd hp.1 (not_lt.2 h0)
  rw [hnone]

/-- Witness for C9: in y = [0, 1] the minimum 0 keeps offset 0. -/
theorem C9_minimum_keeps_zero_offset_witness :
    (beeswarm [0, 1] 1).getD 0 0 = 0 :=
  C9_minimum_keeps_zero_offset [0, 1] 1 0 (by simp)
    (by norm_num [listMin, listMax, min_def, max_def]) (by norm_num [listMin, min_def])

end Fleur
